import Mathlib

/-!
Shallow embedding of the suspension roll-centre calculator in
`src/views/roll_centres.py`, together with theorems checking the
specification's claims about it.

Python floats are modelled as real numbers; Python's `round(x, d)`
(round half to even) is modelled exactly by `pyRound`.
-/

noncomputable section

/-- Python's `round` to an integer: round half to even. -/
def pyRoundInt (x : ℝ) : ℤ :=
  if x - ⌊x⌋ = 1 / 2 then (if ⌊x⌋ % 2 = 0 then ⌊x⌋ else ⌊x⌋ + 1) else round x

/-- Python's `round(x, d)` for `d` decimal digits. -/
def pyRound (d : ℕ) (x : ℝ) : ℝ :=
  (pyRoundInt (x * 10 ^ d) : ℝ) / 10 ^ d

lemma pyRoundInt_eq_of (x : ℝ) (n : ℤ) (h1 : (n : ℝ) - 1 / 2 < x)
    (h2 : x < (n : ℝ) + 1 / 2) : pyRoundInt x = n := by
  have hfl : ¬ (x - ⌊x⌋ = 1 / 2) := by
    intro h
    have hx : x = (⌊x⌋ : ℝ) + 1 / 2 := by linarith
    have hlt : ⌊x⌋ < n := by
      have : (⌊x⌋ : ℝ) < n := by rw [hx] at h2; linarith
      exact_mod_cast this
    have hgt : n - 1 < ⌊x⌋ := by
      have : ((n : ℝ) - 1) < (⌊x⌋ : ℝ) := by rw [hx] at h1; linarith
      exact_mod_cast this
    omega
  rw [pyRoundInt, if_neg hfl, round_eq]
  rw [Int.floor_eq_iff]
  constructor
  · linarith
  · linarith

lemma pyRound_eq_of (d : ℕ) (x : ℝ) (n : ℤ) (h1 : (n : ℝ) - 1 / 2 < x * 10 ^ d)
    (h2 : x * 10 ^ d < (n : ℝ) + 1 / 2) : pyRound d x = (n : ℝ) / 10 ^ d := by
  rw [pyRound, pyRoundInt_eq_of (x * 10 ^ d) n h1 h2]

lemma le_abs_of_le (a b : ℝ) (h : a ≤ b) : a ≤ |b| := le_trans h (le_abs_self b)

/-- `math.degrees`. -/
def degrees (x : ℝ) : ℝ := x * 180 / Real.pi

/-- `math.atan2`. -/
def atan2 (y x : ℝ) : ℝ :=
  if 0 < x then Real.arctan (y / x)
  else if x < 0 then
    (if 0 ≤ y then Real.arctan (y / x) + Real.pi else Real.arctan (y / x) - Real.pi)
  else if 0 < y then Real.pi / 2
  else if y < 0 then -(Real.pi / 2)
  else 0

/-- The dictionary returned by `_front_view_ic`: `None` becomes `Option.none`. -/
structure FrontIC where
  ic_x : Option ℝ
  ic_y : Option ℝ
  rc_y : Option ℝ
  fvsa : Option ℝ
  camber : ℝ
  lca_outer_h : ℝ
  uca_outer_h : ℝ

/-- `_front_view_ic` from `src/views/roll_centres.py`. -/
def front_view_ic (lca_len uca_len lca_inner_h lca_outer_h
    uca_inner_h uca_outer_h half_track bump_in : ℝ) : FrontIC :=
  let inner_x : ℝ := 4
  let outer_x := half_track
  let lo_h := lca_outer_h + bump_in
  let uo_h := uca_outer_h + bump_in * 0.85
  let lca_dx := outer_x - inner_x
  let lca_dy := lo_h - lca_inner_h
  let uca_dx := outer_x - inner_x
  let uca_dy := uo_h - uca_inner_h
  if |lca_dx| < 1e-9 then
    ⟨none, none, none, none, 0, lo_h, uo_h⟩
  else
    let m_lca := lca_dy / lca_dx
    let m_uca := uca_dy / uca_dx
    let slope_diff := m_lca - m_uca
    if |slope_diff| < 1e-9 then
      ⟨none, none, some 0, none, 0, lo_h, uo_h⟩
    else
      let ic_x := inner_x + (uca_inner_h - lca_inner_h) / slope_diff
      let ic_y := lca_inner_h + m_lca * (ic_x - inner_x)
      let contact_x := half_track
      let dx_ic := ic_x - contact_x
      let dy_ic := ic_y - 0
      let rc_y := if |dx_ic| > 1e-9 then 0 + ((0 - contact_x) / dx_ic) * dy_ic else ic_y
      let fvsa := Real.sqrt (dx_ic ^ 2 + dy_ic ^ 2)
      let camber_deg := pyRound 3 (degrees (atan2 uca_dy uca_dx - atan2 lca_dy lca_dx))
      ⟨some (pyRound 2 ic_x), some (pyRound 2 ic_y), some (pyRound 3 rc_y),
        if fvsa = 0 then none else some (pyRound 2 fvsa), camber_deg, lo_h, uo_h⟩

/-- `_calc_front_rc_height`. -/
def calc_front_rc_height (lca_len uca_len lca_inner_h lca_outer_h
    uca_inner_h uca_outer_h half_track : ℝ) : ℝ :=
  match (front_view_ic lca_len uca_len lca_inner_h lca_outer_h
      uca_inner_h uca_outer_h half_track 0).rc_y with
  | some r => r
  | none => 0

/-- `_calc_rear_rc_height`. -/
def calc_rear_rc_height (upper_frame_h upper_axle_h
    upper_frame_offset upper_axle_offset : ℝ) : ℝ :=
  let dx := upper_axle_offset - upper_frame_offset
  if |dx| < 0.001 then pyRound 3 ((upper_frame_h + upper_axle_h) / 2)
  else
    let slope := (upper_axle_h - upper_frame_h) / dx
    pyRound 3 (upper_frame_h - slope * upper_frame_offset)

/-- The value `k_spring` computed inside `_calc_spring_rate`, before rounding. -/
def spring_rate_raw (weight_on_wheel desired_freq m : ℝ) : ℝ :=
  let mass := weight_on_wheel / 386.4
  let k_wheel := (2 * Real.pi * desired_freq) ^ 2 * mass
  if 0 < m then k_wheel / m ^ 2 else k_wheel

/-- `_calc_spring_rate` (argument `m` is the motion ratio). -/
def calc_spring_rate (weight_on_wheel desired_freq m : ℝ) : ℝ :=
  if weight_on_wheel ≤ 0 ∨ desired_freq ≤ 0 then 0
  else pyRound 1 (spring_rate_raw weight_on_wheel desired_freq m)

/-- `_calc_wheel_rate` (argument `m` is the motion ratio). -/
def calc_wheel_rate (spring_rate m : ℝ) : ℝ :=
  pyRound 1 (spring_rate * m ^ 2)

/-- The value `freq` computed inside `_calc_ride_frequency`, before rounding. -/
def ride_frequency_raw (spring_rate weight_on_wheel m : ℝ) : ℝ :=
  let mass := weight_on_wheel / 386.4
  let k_wheel := spring_rate * m ^ 2
  (1 / (2 * Real.pi)) * Real.sqrt (k_wheel / mass)

/-- `_calc_ride_frequency` (argument `m` is the motion ratio). -/
def calc_ride_frequency (spring_rate weight_on_wheel m : ℝ) : ℝ :=
  if weight_on_wheel ≤ 0 ∨ spring_rate ≤ 0 then 0
  else pyRound 2 (ride_frequency_raw spring_rate weight_on_wheel m)

/-- `_calc_camber_gain` (Python's `ZeroDivisionError` at `steps = 1` is caught
and mapped to `[(0, 0)]` by the surrounding `try`/`except`). -/
def calc_camber_gain (lca_len uca_len lca_inner_h lca_outer_h
    uca_inner_h uca_outer_h half_track travel_rng : ℝ) (steps : ℕ) :
    List (ℝ × ℝ) :=
  if steps = 1 then [(0, 0)]
  else
    let base := front_view_ic lca_len uca_len lca_inner_h lca_outer_h
      uca_inner_h uca_outer_h half_track 0
    (List.range steps).map (fun i =>
      let travel := -travel_rng + 2 * travel_rng * (i : ℝ) / ((steps : ℝ) - 1)
      let geo := front_view_ic lca_len uca_len lca_inner_h lca_outer_h
        uca_inner_h uca_outer_h half_track travel
      (pyRound 2 travel, pyRound 3 (geo.camber - base.camber)))

/-- `_calc_sweep_data`. -/
def calc_sweep_data (lca_len uca_len lca_inner_h lca_outer_h
    uca_inner_h uca_outer_h half_track travel_rng : ℝ) (steps : ℕ) :
    List ℝ × List ℝ × List ℝ × List ℝ :=
  let base := front_view_ic lca_len uca_len lca_inner_h lca_outer_h
    uca_inner_h uca_outer_h half_track 0
  let geoAt := fun (i : ℕ) =>
    front_view_ic lca_len uca_len lca_inner_h lca_outer_h uca_inner_h uca_outer_h
      half_track (-travel_rng + 2 * travel_rng * (i : ℝ) / ((steps : ℝ) - 1))
  let travels := (List.range steps).map (fun i =>
    pyRound 3 (-travel_rng + 2 * travel_rng * (i : ℝ) / ((steps : ℝ) - 1)))
  let rc_heights := (List.range steps).map (fun i =>
    match (geoAt i).rc_y with | some r => r | none => 0)
  let fvsa_lengths := (List.range steps).map (fun i =>
    match (geoAt i).fvsa with | some r => r | none => 0)
  let camber_changes := (List.range steps).map (fun i =>
    pyRound 3 ((geoAt i).camber - base.camber))
  (travels, rc_heights, fvsa_lengths, camber_changes)

/-- Claim C1: for non-degenerate, non-parallel front geometry, `_front_view_ic`
shifts the lower outer pivot by the full travel and the upper outer pivot by
0.85 × travel, computes the arm slopes over the span `half_track − 4`, and
returns the instant centre `ic_x = 4 + (uca_inner − lca_inner)/(m_lca − m_uca)`,
`ic_y = lca_inner + m_lca·(ic_x − 4)` (each rounded to 2 decimals), together
with a defined roll-centre height. -/
theorem front_view_ic_nonparallel (l u lih loh uih uoh ht t : ℝ)
    (h1 : 1e-9 ≤ |ht - 4|)
    (h2 : 1e-9 ≤ |(loh + t - lih) / (ht - 4) - (uoh + t * 0.85 - uih) / (ht - 4)|) :
    (front_view_ic l u lih loh uih uoh ht t).lca_outer_h = loh + t ∧
    (front_view_ic l u lih loh uih uoh ht t).uca_outer_h = uoh + t * 0.85 ∧
    (front_view_ic l u lih loh uih uoh ht t).ic_x =
      some (pyRound 2 (4 + (uih - lih) /
        ((loh + t - lih) / (ht - 4) - (uoh + t * 0.85 - uih) / (ht - 4)))) ∧
    (front_view_ic l u lih loh uih uoh ht t).ic_y =
      some (pyRound 2 (lih + (loh + t - lih) / (ht - 4) *
        ((4 + (uih - lih) /
          ((loh + t - lih) / (ht - 4) - (uoh + t * 0.85 - uih) / (ht - 4))) - 4))) ∧
    ((front_view_ic l u lih loh uih uoh ht t).rc_y).isSome = true := by
  have hne1 : ¬ |ht - 4| < 1e-9 := not_lt.mpr h1
  have hne2 : ¬ |(loh + t - lih) / (ht - 4) - (uoh + t * 0.85 - uih) / (ht - 4)| < 1e-9 :=
    not_lt.mpr h2
  simp only [front_view_ic, if_neg hne1, if_neg hne2, Option.isSome_some]
  exact ⟨trivial, trivial, trivial, trivial, trivial⟩

/-- Witness for C1 at the spec's concrete scenario: LCA 12, UCA 10, LCA heights
6/5.5, UCA heights 14/13, half-track 30, travel 0 — finite instant centre
(420, −2) and a defined roll-centre height. -/
theorem front_view_ic_nonparallel_witness :
    (1e-9 ≤ |(30 : ℝ) - 4|) ∧
    (1e-9 ≤ |((5.5 : ℝ) + 0 - 6) / (30 - 4) - (13 + 0 * 0.85 - 14) / (30 - 4)|) ∧
    (front_view_ic 12 10 6 5.5 14 13 30 0).ic_x = some 420 ∧
    (front_view_ic 12 10 6 5.5 14 13 30 0).ic_y = some (-2) ∧
    ((front_view_ic 12 10 6 5.5 14 13 30 0).rc_y).isSome = true := by
  have ha1 : (1e-9 : ℝ) ≤ |(30 : ℝ) - 4| := le_abs_of_le _ _ (by norm_num)
  have ha2 : (1e-9 : ℝ) ≤
      |((5.5 : ℝ) + 0 - 6) / (30 - 4) - (13 + 0 * 0.85 - 14) / (30 - 4)| :=
    le_abs_of_le _ _ (by norm_num)
  have h := front_view_ic_nonparallel 12 10 6 5.5 14 13 30 0 ha1 ha2
  obtain ⟨-, -, hx, hy, hs⟩ := h
  have ex : (4 + ((14 : ℝ) - 6) /
      ((5.5 + 0 - 6) / (30 - 4) - (13 + 0 * 0.85 - 14) / (30 - 4))) = 420 := by norm_num
  have ey : ((6 : ℝ) + (5.5 + 0 - 6) / (30 - 4) *
      ((4 + (14 - 6) / ((5.5 + 0 - 6) / (30 - 4) - (13 + 0 * 0.85 - 14) / (30 - 4))) - 4)) =
      -2 := by norm_num
  rw [ex] at hx
  rw [ey] at hy
  rw [pyRound_eq_of 2 420 42000 (by norm_num) (by norm_num)] at hx
  rw [pyRound_eq_of 2 (-2) (-200) (by norm_num) (by norm_num)] at hy
  have c1 : ((42000 : ℤ) : ℝ) / 10 ^ 2 = 420 := by norm_num
  have c2 : (((-200 : ℤ)) : ℝ) / 10 ^ 2 = -2 := by norm_num
  rw [c1] at hx
  rw [c2] at hy
  exact ⟨ha1, ha2, hx, hy, hs⟩

/-- Claim C2: for parallel control arms (equal slopes within 1e-9, with the
span non-degenerate), `_front_view_ic` reports no instant centre and no FVSA,
and reports the roll-centre height as exactly 0. -/
theorem front_view_ic_parallel (l u lih loh uih uoh ht t : ℝ)
    (h1 : 1e-9 ≤ |ht - 4|)
    (h2 : |(loh + t - lih) / (ht - 4) - (uoh + t * 0.85 - uih) / (ht - 4)| < 1e-9) :
    (front_view_ic l u lih loh uih uoh ht t).ic_x = none ∧
    (front_view_ic l u lih loh uih uoh ht t).ic_y = none ∧
    (front_view_ic l u lih loh uih uoh ht t).fvsa = none ∧
    (front_view_ic l u lih loh uih uoh ht t).rc_y = some 0 := by
  have hne1 : ¬ |ht - 4| < 1e-9 := not_lt.mpr h1
  simp only [front_view_ic, if_neg hne1, if_pos h2]
  exact ⟨trivial, trivial, trivial, trivial⟩

/-- Witness for C2: equal-height (horizontal, hence parallel) control arms at
half-track 30 give no instant centre, no FVSA, and roll-centre height 0. -/
theorem front_view_ic_parallel_witness :
    (1e-9 ≤ |(30 : ℝ) - 4|) ∧
    (|((5 : ℝ) + 0 - 5) / (30 - 4) - (10 + 0 * 0.85 - 10) / (30 - 4)| < 1e-9) ∧
    (front_view_ic 12 10 5 5 10 10 30 0).ic_x = none ∧
    (front_view_ic 12 10 5 5 10 10 30 0).ic_y = none ∧
    (front_view_ic 12 10 5 5 10 10 30 0).fvsa = none ∧
    (front_view_ic 12 10 5 5 10 10 30 0).rc_y = some 0 := by
  have ha1 : (1e-9 : ℝ) ≤ |(30 : ℝ) - 4| := le_abs_of_le _ _ (by norm_num)
  have ha2 : |((5 : ℝ) + 0 - 5) / (30 - 4) - (10 + 0 * 0.85 - 10) / (30 - 4)| < 1e-9 := by
    have : ((5 : ℝ) + 0 - 5) / (30 - 4) - (10 + 0 * 0.85 - 10) / (30 - 4) = 0 := by norm_num
    rw [this, abs_zero]
    norm_num
  have h := front_view_ic_parallel 12 10 5 5 10 10 30 0 ha1 ha2
  exact ⟨ha1, ha2, h.1, h.2.1, h.2.2.1, h.2.2.2⟩

/-- Claim C3: for `|axle_offset − frame_offset| ≥ 0.001`, `_calc_rear_rc_height`
returns `frame_height − slope·frame_offset` (rounded to 3 decimals) with
`slope = (axle_height − frame_height)/(axle_offset − frame_offset)`. -/
theorem calc_rear_rc_height_general (fh ah fo ao : ℝ) (h : 0.001 ≤ |ao - fo|) :
    calc_rear_rc_height fh ah fo ao = pyRound 3 (fh - (ah - fh) / (ao - fo) * fo) := by
  have hne : ¬ |ao - fo| < 0.001 := not_lt.mpr h
  simp only [calc_rear_rc_height, if_neg hne]

/-- Witness for C3 at the spec's concrete scenario 2: frame height 18, axle
height 16, frame offset 2, axle offset 6 yields exactly 19. -/
theorem calc_rear_rc_height_general_witness :
    (0.001 ≤ |(6 : ℝ) - 2|) ∧ calc_rear_rc_height 18 16 2 6 = 19 := by
  have ha : (0.001 : ℝ) ≤ |(6 : ℝ) - 2| := le_abs_of_le _ _ (by norm_num)
  have h := calc_rear_rc_height_general 18 16 2 6 ha
  have ex : ((18 : ℝ) - (16 - 18) / (6 - 2) * 2) = 19 := by norm_num
  rw [ex, pyRound_eq_of 3 19 19000 (by norm_num) (by norm_num)] at h
  have c : ((19000 : ℤ) : ℝ) / 10 ^ 3 = 19 := by norm_num
  rw [c] at h
  exact ⟨ha, h⟩

/-- Claim C4 (amended): the spring-rate/ride-frequency round-trip is exact for
the values the code computes before its decimal rounding steps: for all
`w, f, m > 0`, feeding the unrounded spring rate back through the unrounded
frequency formula returns exactly `f`. -/
theorem spring_freq_roundtrip_raw (w f m : ℝ) (hw : 0 < w) (hf : 0 < f)
    (hm : 0 < m) : ride_frequency_raw (spring_rate_raw w f m) w m = f := by
  simp only [spring_rate_raw, ride_frequency_raw, if_pos hm]
  have hw' : w / 386.4 ≠ 0 := by positivity
  have hm' : m ^ 2 ≠ 0 := by positivity
  have key : (2 * Real.pi * f) ^ 2 * (w / 386.4) / m ^ 2 * m ^ 2 / (w / 386.4) =
      (2 * Real.pi * f) ^ 2 := by
    field_simp
    ring
  rw [key, Real.sqrt_sq (by positivity : (0 : ℝ) ≤ 2 * Real.pi * f)]
  field_simp

/-- Witness for the amended C4 at `w = f = m = 1`. -/
theorem spring_freq_roundtrip_raw_witness :
    ((0 : ℝ) < 1) ∧ ride_frequency_raw (spring_rate_raw 1 1 1) 1 1 = 1 :=
  ⟨one_pos, spring_freq_roundtrip_raw 1 1 1 one_pos one_pos one_pos⟩

/-- Counterexample to C4 as stated: at corner weight `0.001`, frequency `1`,
motion ratio `1`, the code rounds the intermediate spring rate to one decimal,
which yields `0.0`; the frequency computed from it is then `0`, not `1` —
the round-trip misses `f` by `1`, far outside floating-point tolerance. -/
theorem spring_freq_roundtrip_cex :
    calc_ride_frequency (calc_spring_rate 0.001 1 1) 0.001 1 = 0 ∧
    ¬ |calc_ride_frequency (calc_spring_rate 0.001 1 1) 0.001 1 - 1| ≤ 0.01 := by
  have hsr : calc_spring_rate 0.001 1 1 = 0 := by
    have hguard : ¬ ((0.001 : ℝ) ≤ 0 ∨ (1 : ℝ) ≤ 0) := by norm_num
    rw [calc_spring_rate, if_neg hguard]
    have hlb : ((0 : ℤ) : ℝ) - 1 / 2 < spring_rate_raw 0.001 1 1 * 10 ^ 1 := by
      simp only [spring_rate_raw, if_pos (show (0 : ℝ) < 1 by norm_num)]
      nlinarith [Real.pi_pos, sq_nonneg Real.pi]
    have hub : spring_rate_raw 0.001 1 1 * 10 ^ 1 < ((0 : ℤ) : ℝ) + 1 / 2 := by
      simp only [spring_rate_raw, if_pos (show (0 : ℝ) < 1 by norm_num)]
      nlinarith [Real.pi_pos, Real.pi_lt_d2]
    rw [pyRound_eq_of 1 (spring_rate_raw 0.001 1 1) 0 hlb hub]
    norm_num
  have hfr : calc_ride_frequency 0 0.001 1 = 0 := by
    rw [calc_ride_frequency, if_pos (Or.inr (le_refl (0 : ℝ)))]
  rw [hsr, hfr]
  have habs : |(0 : ℝ) - 1| = 1 := by
    rw [show (0 : ℝ) - 1 = -1 by norm_num, abs_neg, abs_one]
  rw [habs]
  norm_num

lemma rear_rc_frame_offset_zero (fh ah ao : ℝ) (h : ¬ |ao| < 0.001) :
    calc_rear_rc_height fh ah 0 ao = pyRound 3 fh := by
  simp only [calc_rear_rc_height, sub_zero, mul_zero, if_neg h]

/-- Claim C5 (amended): with `frame_offset = 0` the rear roll-centre height is
constant — the projection to the centreline returns `frame_height` (rounded to
3 decimals) for every axle offset with `|axle_offset| ≥ 0.001` — so increasing
the axle offset never moves it away from `frame_height`. -/
theorem calc_rear_rc_height_const_at_zero_frame_offset (fh ah ao : ℝ)
    (h : 0.001 ≤ |ao|) : calc_rear_rc_height fh ah 0 ao = pyRound 3 fh :=
  rear_rc_frame_offset_zero fh ah ao (not_lt.mpr h)

/-- Witness for the amended C5: frame height 1, axle height 2, frame offset 0,
axle offset 1 gives roll-centre height `round(1, 3)`. -/
theorem calc_rear_rc_height_const_witness :
    ((0.001 : ℝ) ≤ |(1 : ℝ)|) ∧ calc_rear_rc_height 1 2 0 1 = pyRound 3 1 := by
  have ha : (0.001 : ℝ) ≤ |(1 : ℝ)| := le_abs_of_le _ _ (by norm_num)
  exact ⟨ha, calc_rear_rc_height_const_at_zero_frame_offset 1 2 1 ha⟩

/-- Counterexample to C5 as stated: with frame height 1 < axle height 2 and
frame offset 0, increasing the axle offset from 1 to 2 leaves the rear
roll-centre height at exactly 1 = frame height; its distance from frame height
stays 0 and never grows. -/
theorem rear_rc_monotone_cex :
    calc_rear_rc_height 1 2 0 1 = 1 ∧ calc_rear_rc_height 1 2 0 2 = 1 ∧
    ¬ (|calc_rear_rc_height 1 2 0 2 - 1| > |calc_rear_rc_height 1 2 0 1 - 1|) := by
  have hround : pyRound 3 (1 : ℝ) = 1 := by
    rw [pyRound_eq_of 3 1 1000 (by norm_num) (by norm_num)]
    norm_num
  have h1 : calc_rear_rc_height 1 2 0 1 = 1 := by
    have hne : ¬ |(1 : ℝ)| < 0.001 := by rw [abs_one]; norm_num
    rw [rear_rc_frame_offset_zero 1 2 1 hne, hround]
  have h2 : calc_rear_rc_height 1 2 0 2 = 1 := by
    have hne : ¬ |(2 : ℝ)| < 0.001 := by
      rw [abs_of_pos (show (0 : ℝ) < 2 by norm_num)]; norm_num
    rw [rear_rc_frame_offset_zero 1 2 2 hne, hround]
  refine ⟨h1, h2, ?_⟩
  rw [h1, h2]
  simp

/-- Claim C6 (amended): when `|axle_offset − frame_offset| < 0.001`,
`_calc_rear_rc_height` returns `(frame_height + axle_height)/2` rounded to
3 decimal places (hence the exact average only when that average needs at most
3 decimals). -/
theorem calc_rear_rc_height_degenerate (fh ah fo ao : ℝ) (h : |ao - fo| < 0.001) :
    calc_rear_rc_height fh ah fo ao = pyRound 3 ((fh + ah) / 2) := by
  simp only [calc_rear_rc_height, if_pos h]

/-- Witness for the amended C6: heights 18 and 16 with equal offsets give 17. -/
theorem calc_rear_rc_height_degenerate_witness :
    (|(0 : ℝ) - 0| < 0.001) ∧ calc_rear_rc_height 18 16 0 0 = 17 := by
  have ha : |(0 : ℝ) - 0| < 0.001 := by rw [sub_zero, abs_zero]; norm_num
  have h := calc_rear_rc_height_degenerate 18 16 0 0 ha
  have ex : ((18 : ℝ) + 16) / 2 = 17 := by norm_num
  rw [ex, pyRound_eq_of 3 17 17000 (by norm_num) (by norm_num)] at h
  have c : ((17000 : ℤ) : ℝ) / 10 ^ 3 = 17 := by norm_num
  rw [c] at h
  exact ⟨ha, h⟩

/-- Counterexample to C6 as stated: for frame height 0.0001 and axle height 0
(equal offsets), the exact average is 0.00005 but the function returns its
3-decimal rounding 0, so the result is not exactly the average. -/
theorem rear_rc_exact_average_cex :
    calc_rear_rc_height (1 / 10000) 0 0 0 ≠ ((1 / 10000 : ℝ) + 0) / 2 := by
  have ha : |(0 : ℝ) - 0| < 0.001 := by rw [sub_zero, abs_zero]; norm_num
  have h : calc_rear_rc_height (1 / 10000) 0 0 0 = 0 := by
    simp only [calc_rear_rc_height, if_pos ha]
    rw [pyRound_eq_of 3 (((1 : ℝ) / 10000 + 0) / 2) 0 (by norm_num) (by norm_num)]
    norm_num
  rw [h]
  norm_num

/-- Claim C7 (amended): `_calc_spring_rate` and `_calc_ride_frequency` return 0
whenever their weight/frequency/spring-rate argument is non-positive, but
`_calc_wheel_rate` has no such guard: it always returns
`spring_rate · motion_ratio²` rounded to one decimal, whatever the sign of its
spring-rate argument. -/
theorem rate_conversion_guards :
    (∀ w f m : ℝ, w ≤ 0 ∨ f ≤ 0 → calc_spring_rate w f m = 0) ∧
    (∀ k w m : ℝ, w ≤ 0 ∨ k ≤ 0 → calc_ride_frequency k w m = 0) ∧
    (∀ k m : ℝ, calc_wheel_rate k m = pyRound 1 (k * m ^ 2)) := by
  refine ⟨fun w f m h => ?_, fun k w m h => ?_, fun k m => rfl⟩
  · rw [calc_spring_rate, if_pos h]
  · rw [calc_ride_frequency, if_pos h]

/-- Witness for the amended C7 at concrete arguments. -/
theorem rate_conversion_guards_witness :
    calc_spring_rate (-1) 1 1 = 0 ∧ calc_ride_frequency (-1) 1 1 = 0 ∧
    calc_wheel_rate 2 3 = pyRound 1 (2 * 3 ^ 2) :=
  ⟨rate_conversion_guards.1 (-1) 1 1 (Or.inl (by norm_num)),
   rate_conversion_guards.2.1 (-1) 1 1 (Or.inr (by norm_num)),
   rate_conversion_guards.2.2 2 3⟩

/-- Counterexample to C7 as stated: `_calc_wheel_rate` applied to the negative
spring rate −100 (motion ratio 1) returns −100, not 0. -/
theorem calc_wheel_rate_no_guard_cex :
    calc_wheel_rate (-100) 1 = -100 ∧ ((-100 : ℝ) ≠ 0) := by
  constructor
  · rw [calc_wheel_rate]
    have ex : ((-100 : ℝ) * 1 ^ 2) = -100 := by norm_num
    rw [ex, pyRound_eq_of 1 (-100) (-1000) (by norm_num) (by norm_num)]
    norm_num
  · norm_num

/-- Claim C8 (amended): a zero or negative control-arm length does not produce
a special "no data" result: `_front_view_ic` never reads its arm-length
arguments, so such inputs yield exactly the result obtained with positive
lengths; the solver is a total function (its divisions are guarded by explicit
tolerance checks, and it contains no exception handler), and
`_calc_front_rc_height` maps an undefined roll-centre height to 0. -/
theorem front_len_nonpos_no_special_result :
    (∀ l u lih loh uih uoh ht t : ℝ, l ≤ 0 ∨ u ≤ 0 →
      front_view_ic l u lih loh uih uoh ht t =
        front_view_ic 1 1 lih loh uih uoh ht t) ∧
    (∀ l u lih loh uih uoh ht : ℝ,
      (front_view_ic l u lih loh uih uoh ht 0).rc_y = none →
      calc_front_rc_height l u lih loh uih uoh ht = 0) := by
  refine ⟨fun _ _ _ _ _ _ _ _ _ => rfl, fun l u lih loh uih uoh ht h => ?_⟩
  unfold calc_front_rc_height
  rw [h]

/-- Witness for the amended C8: arm length −1 gives the same result as arm
length 1, and a degenerate geometry (half-track 4) with undefined roll-centre
height is mapped to 0 by `_calc_front_rc_height`. -/
theorem front_len_nonpos_no_special_result_witness :
    ((-1 : ℝ) ≤ 0 ∨ (10 : ℝ) ≤ 0) ∧
    front_view_ic (-1) 10 6 5.5 14 13 30 0 = front_view_ic 1 1 6 5.5 14 13 30 0 ∧
    (front_view_ic 1 1 0 0 0 0 4 0).rc_y = none ∧
    calc_front_rc_height 1 1 0 0 0 0 4 = 0 := by
  have hdeg : |(4 : ℝ) - 4| < 1e-9 := by rw [sub_self, abs_zero]; norm_num
  have hrc : (front_view_ic 1 1 0 0 0 0 4 0).rc_y = none := by
    simp only [front_view_ic, if_pos hdeg]
  exact ⟨Or.inl (by norm_num),
    front_len_nonpos_no_special_result.1 (-1) 10 6 5.5 14 13 30 0
      (Or.inl (by norm_num)),
    hrc, front_len_nonpos_no_special_result.2 1 1 0 0 0 0 4 hrc⟩

/-- Counterexample to C8 as stated: with LCA length −1 (and the otherwise
well-formed geometry of the spec's scenario 1) the solver does not return a
"no data" result — it returns the full finite instant centre, ic_x = 420. -/
theorem front_len_nonpos_cex :
    (front_view_ic (-1) 10 6 5.5 14 13 30 0).ic_x = some 420 ∧
    (front_view_ic (-1) 10 6 5.5 14 13 30 0).ic_x ≠ none := by
  have hne1 : ¬ |(30 : ℝ) - 4| < 1e-9 :=
    not_lt.mpr (le_abs_of_le _ _ (by norm_num))
  have hne2 : ¬ |((5.5 : ℝ) + 0 - 6) / (30 - 4) - (13 + 0 * 0.85 - 14) / (30 - 4)| <
      1e-9 := not_lt.mpr (le_abs_of_le _ _ (by norm_num))
  have hx : (front_view_ic (-1) 10 6 5.5 14 13 30 0).ic_x =
      some (pyRound 2 (4 + ((14 : ℝ) - 6) /
        ((5.5 + 0 - 6) / (30 - 4) - (13 + 0 * 0.85 - 14) / (30 - 4)))) := by
    simp only [front_view_ic, if_neg hne1, if_neg hne2]
  have ex : (4 + ((14 : ℝ) - 6) /
      ((5.5 + 0 - 6) / (30 - 4) - (13 + 0 * 0.85 - 14) / (30 - 4))) = 420 := by
    norm_num
  rw [ex, pyRound_eq_of 2 420 42000 (by norm_num) (by norm_num)] at hx
  have c : ((42000 : ℤ) : ℝ) / 10 ^ 2 = 420 := by norm_num
  rw [c] at hx
  exact ⟨hx, by rw [hx]; simp⟩

/-- Claim C9: when the computed instant centre sits at the contact patch's
lateral position (`|ic_x − half_track| ≤ 1e-9`), `_front_view_ic` returns the
instant centre's own height `ic_y` (rounded to 3 decimals) as the roll-centre
height instead of projecting to the centreline. -/
theorem front_view_ic_vertical_fallback (l u lih loh uih uoh ht t : ℝ)
    (h1 : 1e-9 ≤ |ht - 4|)
    (h2 : 1e-9 ≤ |(loh + t - lih) / (ht - 4) - (uoh + t * 0.85 - uih) / (ht - 4)|)
    (h3 : |4 + (uih - lih) /
        ((loh + t - lih) / (ht - 4) - (uoh + t * 0.85 - uih) / (ht - 4)) - ht| ≤
      1e-9) :
    (front_view_ic l u lih loh uih uoh ht t).rc_y =
      some (pyRound 3 (lih + (loh + t - lih) / (ht - 4) *
        (4 + (uih - lih) /
          ((loh + t - lih) / (ht - 4) - (uoh + t * 0.85 - uih) / (ht - 4)) - 4))) := by
  have hne1 : ¬ |ht - 4| < 1e-9 := not_lt.mpr h1
  have hne2 : ¬ |(loh + t - lih) / (ht - 4) - (uoh + t * 0.85 - uih) / (ht - 4)| <
      1e-9 := not_lt.mpr h2
  have hne3 : ¬ |4 + (uih - lih) /
        ((loh + t - lih) / (ht - 4) - (uoh + t * 0.85 - uih) / (ht - 4)) - ht| >
      1e-9 := not_lt.mpr h3
  simp only [front_view_ic, if_neg hne1, if_neg hne2, if_neg hne3]

/-- Witness for C9: geometry whose instant centre lies exactly above the
contact patch (`ic_x = half_track = 30`) returns `rc_y = ic_y = 13`. -/
theorem front_view_ic_vertical_fallback_witness :
    (1e-9 ≤ |(30 : ℝ) - 4|) ∧
    (1e-9 ≤ |((13 : ℝ) + 0 - 0) / (30 - 4) - (13 + 0 * 0.85 - 13) / (30 - 4)|) ∧
    (|4 + ((13 : ℝ) - 0) /
        (((13 : ℝ) + 0 - 0) / (30 - 4) - (13 + 0 * 0.85 - 13) / (30 - 4)) - 30| ≤
      1e-9) ∧
    (front_view_ic 12 10 0 13 13 13 30 0).rc_y = some 13 := by
  have ha1 : (1e-9 : ℝ) ≤ |(30 : ℝ) - 4| := le_abs_of_le _ _ (by norm_num)
  have ha2 : (1e-9 : ℝ) ≤
      |((13 : ℝ) + 0 - 0) / (30 - 4) - (13 + 0 * 0.85 - 13) / (30 - 4)| :=
    le_abs_of_le _ _ (by norm_num)
  have ha3 : |4 + ((13 : ℝ) - 0) /
      (((13 : ℝ) + 0 - 0) / (30 - 4) - (13 + 0 * 0.85 - 13) / (30 - 4)) - 30| ≤
      (1e-9 : ℝ) := by
    have ez : (4 + ((13 : ℝ) - 0) /
        (((13 : ℝ) + 0 - 0) / (30 - 4) - (13 + 0 * 0.85 - 13) / (30 - 4)) - 30) = 0 := by
      norm_num
    rw [ez, abs_zero]
    norm_num
  have h := front_view_ic_vertical_fallback 12 10 0 13 13 13 30 0 ha1 ha2 ha3
  have ey : ((0 : ℝ) + (13 + 0 - 0) / (30 - 4) *
      (4 + (13 - 0) / ((13 + 0 - 0) / (30 - 4) - (13 + 0 * 0.85 - 13) / (30 - 4)) - 4)) =
      13 := by norm_num
  rw [ey, pyRound_eq_of 3 13 13000 (by norm_num) (by norm_num)] at h
  have c : ((13000 : ℤ) : ℝ) / 10 ^ 3 = 13 := by norm_num
  rw [c] at h
  exact ⟨ha1, ha2, ha3, h⟩

/-- Claim C10: the output of `_front_view_ic` — and hence the camber-gain
table and the sweep series — does not depend on the `lca_len`/`uca_len`
arguments: calls differing only in the arm lengths return identical results
in every field. -/
theorem front_outputs_independent_of_arm_lengths
    (l1 u1 l2 u2 lih loh uih uoh ht t tr : ℝ) (steps : ℕ) :
    front_view_ic l1 u1 lih loh uih uoh ht t =
      front_view_ic l2 u2 lih loh uih uoh ht t ∧
    calc_camber_gain l1 u1 lih loh uih uoh ht tr steps =
      calc_camber_gain l2 u2 lih loh uih uoh ht tr steps ∧
    calc_sweep_data l1 u1 lih loh uih uoh ht tr steps =
      calc_sweep_data l2 u2 lih loh uih uoh ht tr steps :=
  ⟨rfl, rfl, rfl⟩

end
